import Mathlib

/-
  Verification of the 16-bit x86 emulator CPU core (rs-x86emu).

  Shallow embedding of the executor arms of src/cpu/cpu.rs (the current CPU
  generation) over an explicit machine state.  Machine integers are Nat with
  explicit reductions modulo 2^8 / 2^16 / 2^20 / 2^64 where the Rust code
  masks, casts or uses Wrapping arithmetic.  Rust panics (division by zero,
  signed division overflow) are modelled by Option, with none for a panic.

  The flag helper module (cpu/flags.rs), the MMU (memory/mmu.rs) and the
  16-bit register cell (cpu/register.rs) are not part of the sources at hand;
  their definitions below are modelled from the specification (sections 3,
  4.1 and 4.2) and are marked as such.
-/

namespace RsX86Emu

/-- 2^64, the modulus of Rust usize Wrapping arithmetic. -/
def pow64 : Nat := 18446744073709551616

/-- 2^20, the linear address space size (1 MiB). -/
def pow20 : Nat := 1048576

/-- Wrapping usize subtraction: (a - b) mod 2^64 for a, b < 2^64. -/
def w64sub (a b : Nat) : Nat := (a + (pow64 - b % pow64)) % pow64

/-- Number of 1-bits among the low k bits of x. -/
def bitsOnes : Nat → Nat → Nat
  | 0, _ => 0
  | k + 1, x => x % 2 + bitsOnes k (x / 2)

/-- Number of 1-bits in the low byte of x. -/
def byteOnes (x : Nat) : Nat := bitsOnes 8 (x % 256)

/-- Modelled from the spec: the flags word of cpu/flags.rs (file not under
the sources at hand), independent boolean fields CF PF AF ZF SF TF IF DF OF
(spec section 3). -/
structure Flags where
  carry : Bool
  parity : Bool
  auxiliary_carry : Bool
  zero : Bool
  sign : Bool
  trap : Bool
  interrupt : Bool
  direction : Bool
  overflow : Bool
deriving DecidableEq

/-- Modelled from the spec: CF for 8-bit results, set when the unsigned
result exceeded the operand width (bit 8) (spec section 4.2). -/
def set_carry_u8 (f : Flags) (res : Nat) : Flags :=
  { f with carry := decide (256 ≤ res % 512) }

/-- Modelled from the spec: CF for 16-bit results (bit 16). -/
def set_carry_u16 (f : Flags) (res : Nat) : Flags :=
  { f with carry := decide (65536 ≤ res % 131072) }

/-- Modelled from the spec: ZF set iff the width-masked result is zero. -/
def set_zero_u8 (f : Flags) (res : Nat) : Flags :=
  { f with zero := decide (res % 256 = 0) }

/-- Modelled from the spec: ZF set iff the width-masked result is zero. -/
def set_zero_u16 (f : Flags) (res : Nat) : Flags :=
  { f with zero := decide (res % 65536 = 0) }

/-- Modelled from the spec: SF is the top bit of the width-masked result. -/
def set_sign_u8 (f : Flags) (res : Nat) : Flags :=
  { f with sign := decide (128 ≤ res % 256) }

/-- Modelled from the spec: SF is the top bit of the width-masked result. -/
def set_sign_u16 (f : Flags) (res : Nat) : Flags :=
  { f with sign := decide (32768 ≤ res % 65536) }

/-- Modelled from the spec: PF set iff the low byte of the result has an
even number of 1-bits. -/
def set_parity (f : Flags) (res : Nat) : Flags :=
  { f with parity := decide (byteOnes res % 2 = 0) }

/-- Modelled from the spec: AF set when carry/borrow occurred between bit 3
and bit 4, ((res XOR src XOR dst) AND 0x10) ≠ 0. -/
def set_auxiliary (f : Flags) (res src dst : Nat) : Flags :=
  { f with auxiliary_carry := decide (16 ≤ (res ^^^ src ^^^ dst) % 32) }

/-- Modelled from the spec: OF after add, set when src and dst share a sign
bit that differs from the result sign bit (8-bit). -/
def set_overflow_add_u8 (f : Flags) (res src dst : Nat) : Flags :=
  { f with overflow :=
      decide ((128 ≤ src % 256 ↔ 128 ≤ dst % 256) ∧ ¬(128 ≤ res % 256 ↔ 128 ≤ src % 256)) }

/-- Modelled from the spec: OF after add (16-bit). -/
def set_overflow_add_u16 (f : Flags) (res src dst : Nat) : Flags :=
  { f with overflow :=
      decide ((32768 ≤ src % 65536 ↔ 32768 ≤ dst % 65536) ∧ ¬(32768 ≤ res % 65536 ↔ 32768 ≤ src % 65536)) }

/-- Modelled from the spec: OF after sub, set when src and dst differ in
sign and the result sign matches src (8-bit). -/
def set_overflow_sub_u8 (f : Flags) (res src dst : Nat) : Flags :=
  { f with overflow :=
      decide (¬(128 ≤ src % 256 ↔ 128 ≤ dst % 256) ∧ (128 ≤ res % 256 ↔ 128 ≤ src % 256)) }

/-- Modelled from the spec: OF after sub (16-bit). -/
def set_overflow_sub_u16 (f : Flags) (res src dst : Nat) : Flags :=
  { f with overflow :=
      decide (¬(32768 ≤ src % 65536 ↔ 32768 ≤ dst % 65536) ∧ (32768 ≤ res % 65536 ↔ 32768 ≤ src % 65536)) }

/-- The architectural machine state: IP, the eight 16-bit general registers,
the six segment registers, the flags word, the linear 1 MiB memory, the
sticky fatal error flag and the executed instruction counter
(CPU struct of src/cpu/cpu.rs). -/
structure Machine where
  ip : Nat
  ax : Nat
  cx : Nat
  dx : Nat
  bx : Nat
  sp : Nat
  bp : Nat
  si : Nat
  di : Nat
  es : Nat
  cs : Nat
  ss : Nat
  ds : Nat
  fs : Nat
  gs : Nat
  flags : Flags
  mem : Nat → Nat
  fatal_error : Bool
  instruction_count : Nat

/-- Modelled from the spec: segment translation of memory/mmu.rs (file not
under the sources at hand), linear = ((seg << 4) + off) AND 0xFFFFF with
u16 inputs (spec section 4.1). -/
def s_translate (seg off : Nat) : Nat :=
  ((seg % 65536) * 16 + off % 65536) % pow20

/-- Modelled from the spec: MMU byte read (memory/mmu.rs not under the
sources at hand). -/
def mmu_read_u8 (m : Nat → Nat) (seg off : Nat) : Nat :=
  m (s_translate seg off) % 256

/-- Modelled from the spec: MMU byte write. -/
def mmu_write_u8 (m : Nat → Nat) (seg off v : Nat) : Nat → Nat :=
  fun a => if a = s_translate seg off then v % 256 else m a

/-- Modelled from the spec: MMU little-endian word read; the second byte
offset wraps at 0xFFFF within the same segment (spec section 4.1). -/
def mmu_read_u16 (m : Nat → Nat) (seg off : Nat) : Nat :=
  mmu_read_u8 m seg off + 256 * mmu_read_u8 m seg ((off + 1) % 65536)

/-- Modelled from the spec: MMU little-endian word write. -/
def mmu_write_u16 (m : Nat → Nat) (seg off v : Nat) : Nat → Nat :=
  mmu_write_u8 (mmu_write_u8 m seg off (v % 256)) seg ((off + 1) % 65536) (v / 256 % 256)

/-- Modelled from the spec: MMU block write used by load_com, placing the
image bytes at consecutive offsets from seg:off. -/
def mmu_write_bytes (m : Nat → Nat) (seg off : Nat) : List Nat → (Nat → Nat)
  | [] => m
  | b :: rest => mmu_write_bytes (mmu_write_u8 m seg off b) seg (off + 1) rest

/-- CPU::push16 (src/cpu/cpu.rs): SP decrements by two (u16 wrap) and the
word is stored at SS:SP. -/
def push16 (s : Machine) (data : Nat) : Machine :=
  { s with sp := (s.sp + 65534) % 65536,
           mem := mmu_write_u16 s.mem s.ss ((s.sp + 65534) % 65536) data }

/-- CPU::pop16 (src/cpu/cpu.rs): the word at SS:SP is read, then SP
increments by two (u16 wrap). -/
def pop16 (s : Machine) : Nat × Machine :=
  (mmu_read_u16 s.mem s.ss s.sp, { s with sp := (s.sp + 2) % 65536 })

/-- Op::Add8 executor arm (src/cpu/cpu.rs): both operands cast to u8, plain
usize sum, flags CF PF AF ZF SF OF set from the result; returns the written
byte and the flags. -/
def add8_exec (f : Flags) (src dst : Nat) : Nat × Flags :=
  let s := src % 256
  let d := dst % 256
  let res := s + d
  let f := set_carry_u8 f res
  let f := set_parity f res
  let f := set_auxiliary f res s d
  let f := set_zero_u8 f res
  let f := set_sign_u8 f res
  let f := set_overflow_add_u8 f res s d
  (res % 256, f)

/-- Op::Add16 executor arm (src/cpu/cpu.rs). -/
def add16_exec (f : Flags) (src dst : Nat) : Nat × Flags :=
  let s := src % 65536
  let d := dst % 65536
  let res := s + d
  let f := set_carry_u16 f res
  let f := set_parity f res
  let f := set_auxiliary f res s d
  let f := set_zero_u16 f res
  let f := set_sign_u16 f res
  let f := set_overflow_add_u16 f res s d
  (res % 65536, f)

/-- Op::Sub8 executor arm (src/cpu/cpu.rs): Wrapping usize subtraction,
flags OF SF ZF AF PF CF set from the result. -/
def sub8_exec (f : Flags) (src dst : Nat) : Nat × Flags :=
  let res := w64sub dst src
  let f := set_overflow_sub_u8 f res src dst
  let f := set_sign_u8 f res
  let f := set_zero_u8 f res
  let f := set_auxiliary f res src dst
  let f := set_parity f res
  let f := set_carry_u8 f res
  (res % 256, f)

/-- Op::Sub16 executor arm (src/cpu/cpu.rs). -/
def sub16_exec (f : Flags) (src dst : Nat) : Nat × Flags :=
  let res := w64sub dst src
  let f := set_overflow_sub_u16 f res src dst
  let f := set_sign_u16 f res
  let f := set_zero_u16 f res
  let f := set_auxiliary f res src dst
  let f := set_parity f res
  let f := set_carry_u16 f res
  (res % 65536, f)

/-- Op::Inc8 executor arm (src/cpu/cpu.rs): src fixed to 1, CF untouched. -/
def inc8_exec (f : Flags) (dst : Nat) : Nat × Flags :=
  let res := (dst + 1) % pow64
  let f := set_overflow_add_u8 f res 1 dst
  let f := set_sign_u8 f res
  let f := set_zero_u8 f res
  let f := set_auxiliary f res 1 dst
  let f := set_parity f res
  (res % 256, f)

/-- Op::Inc16 executor arm (src/cpu/cpu.rs). -/
def inc16_exec (f : Flags) (dst : Nat) : Nat × Flags :=
  let res := (dst + 1) % pow64
  let f := set_overflow_add_u16 f res 1 dst
  let f := set_sign_u16 f res
  let f := set_zero_u16 f res
  let f := set_auxiliary f res 1 dst
  let f := set_parity f res
  (res % 65536, f)

/-- Op::Dec8 executor arm (src/cpu/cpu.rs): src fixed to 1, CF untouched. -/
def dec8_exec (f : Flags) (dst : Nat) : Nat × Flags :=
  let res := w64sub dst 1
  let f := set_overflow_sub_u8 f res 1 dst
  let f := set_sign_u8 f res
  let f := set_zero_u8 f res
  let f := set_auxiliary f res 1 dst
  let f := set_parity f res
  (res % 256, f)

/-- Op::Dec16 executor arm (src/cpu/cpu.rs). -/
def dec16_exec (f : Flags) (dst : Nat) : Nat × Flags :=
  let res := w64sub dst 1
  let f := set_overflow_sub_u16 f res 1 dst
  let f := set_sign_u16 f res
  let f := set_zero_u16 f res
  let f := set_auxiliary f res 1 dst
  let f := set_parity f res
  (res % 65536, f)

/-- Op::Neg8 executor arm (src/cpu/cpu.rs): res = 0 - dst (Wrapping); the
carry update tests the local constant src (0), not the operand, so CF is
always cleared. -/
def neg8_exec (f : Flags) (dst : Nat) : Nat × Flags :=
  let res := w64sub 0 dst
  let f := { f with carry := false }
  let f := set_overflow_sub_u8 f res 0 dst
  let f := set_sign_u8 f res
  let f := set_zero_u8 f res
  let f := set_auxiliary f res 0 dst
  let f := set_parity f res
  (res % 256, f)

/-- Op::Neg16 executor arm (src/cpu/cpu.rs): same carry slip as Neg8. -/
def neg16_exec (f : Flags) (dst : Nat) : Nat × Flags :=
  let res := w64sub 0 dst
  let f := { f with carry := false }
  let f := set_overflow_sub_u16 f res 0 dst
  let f := set_sign_u16 f res
  let f := set_zero_u16 f res
  let f := set_auxiliary f res 0 dst
  let f := set_parity f res
  (res % 65536, f)

/-- Op::Mul8 executor arm (src/cpu/cpu.rs): AX = AL * operand; no flag is
written (the arm carries an XXX flags comment). -/
def mul8_exec (s : Machine) (dstVal : Nat) : Machine :=
  { s with ax := dstVal * (s.ax % 256) % pow64 % 65536 }

/-- Op::Mul16 executor arm (src/cpu/cpu.rs): DX:AX = AX * operand; CF and OF
track DX ≠ 0, and ZF is assigned (AX ≠ 0) OR (DX ≠ 0). -/
def mul16_exec (s : Machine) (dstVal : Nat) : Machine :=
  let res := dstVal * s.ax % pow64
  let axv := res % 65536
  let dxv := res / 65536 % 65536
  { s with ax := axv, dx := dxv,
           flags := { s.flags with
             carry := decide (dxv ≠ 0),
             overflow := decide (dxv ≠ 0),
             zero := decide (axv ≠ 0) || decide (dxv ≠ 0) } }

/-- Op::And8 executor arm (src/cpu/cpu.rs): OF and CF cleared, SF ZF PF from
the result. -/
def and8_exec (f : Flags) (src dst : Nat) : Nat × Flags :=
  let res := dst &&& src
  let f := { f with overflow := false }
  let f := { f with carry := false }
  let f := set_sign_u8 f res
  let f := set_zero_u8 f res
  let f := set_parity f res
  (res % 256, f)

/-- Op::And16 executor arm (src/cpu/cpu.rs). -/
def and16_exec (f : Flags) (src dst : Nat) : Nat × Flags :=
  let res := dst &&& src
  let f := { f with overflow := false }
  let f := { f with carry := false }
  let f := set_sign_u16 f res
  let f := set_zero_u16 f res
  let f := set_parity f res
  (res % 65536, f)

/-- Op::Or8 executor arm (src/cpu/cpu.rs). -/
def or8_exec (f : Flags) (src dst : Nat) : Nat × Flags :=
  let res := dst ||| src
  let f := { f with overflow := false }
  let f := { f with carry := false }
  let f := set_sign_u8 f res
  let f := set_zero_u8 f res
  let f := set_parity f res
  (res % 256, f)

/-- Op::Or16 executor arm (src/cpu/cpu.rs). -/
def or16_exec (f : Flags) (src dst : Nat) : Nat × Flags :=
  let res := dst ||| src
  let f := { f with overflow := false }
  let f := { f with carry := false }
  let f := set_sign_u16 f res
  let f := set_zero_u16 f res
  let f := set_parity f res
  (res % 65536, f)

/-- Op::Xor8 executor arm (src/cpu/cpu.rs). -/
def xor8_exec (f : Flags) (src dst : Nat) : Nat × Flags :=
  let res := dst ^^^ src
  let f := { f with overflow := false }
  let f := { f with carry := false }
  let f := set_sign_u8 f res
  let f := set_zero_u8 f res
  let f := set_parity f res
  (res % 256, f)

/-- Op::Xor16 executor arm (src/cpu/cpu.rs). -/
def xor16_exec (f : Flags) (src dst : Nat) : Nat × Flags :=
  let res := dst ^^^ src
  let f := { f with overflow := false }
  let f := { f with carry := false }
  let f := set_sign_u16 f res
  let f := set_zero_u16 f res
  let f := set_parity f res
  (res % 65536, f)

/-- Op::Test8 executor arm (src/cpu/cpu.rs): only SF ZF PF are written; CF
and OF are left untouched. -/
def test8_exec (f : Flags) (src dst : Nat) : Flags :=
  let res := dst &&& src
  let f := set_sign_u8 f res
  let f := set_zero_u8 f res
  let f := set_parity f res
  f

/-- Op::Test16 executor arm (src/cpu/cpu.rs). -/
def test16_exec (f : Flags) (src dst : Nat) : Flags :=
  let res := dst &&& src
  let f := set_sign_u16 f res
  let f := set_zero_u16 f res
  let f := set_parity f res
  f

/-- Op::Movzx16 executor arm (src/cpu/cpu.rs): the source byte is
zero-extended per the arm's own comment, but the code adds 0xFF00 when bit 7
of the source is set. -/
def movzx16_exec (srcVal : Nat) : Nat :=
  let src := srcVal % 256
  let data := src
  let data := if 128 ≤ src then data + 0xFF00 else data
  data

/-- Op::Div8 executor arm (src/cpu/cpu.rs): AX divided by the operand with
Wrapping usize division, quotient to AL, remainder to AH; a zero divisor
panics (none); no zero or overflow check exists in the arm. -/
def div8_exec (s : Machine) (srcVal : Nat) : Option Machine :=
  let dst := s.ax
  if srcVal = 0 then none
  else
    let res := dst / srcVal
    let rem := dst % srcVal
    some { s with ax := rem % 256 * 256 + res % 256 }

/-- Op::Div16 executor arm (src/cpu/cpu.rs): DX:AX divided by the operand,
quotient to AX, remainder to DX; a zero divisor panics (none). -/
def div16_exec (s : Machine) (srcVal : Nat) : Option Machine :=
  let dst := s.dx * 65536 + s.ax
  if srcVal = 0 then none
  else
    some { s with ax := dst / srcVal % 65536, dx := dst % srcVal % 65536 }

/-- Interpretation of a u16 bit pattern as an i16 value. -/
def toI16 (x : Nat) : Int :=
  if x % 65536 < 32768 then (x % 65536 : Int) else (x % 65536 : Int) - 65536

/-- Op::Idiv8 executor arm (src/cpu/cpu.rs): AX as i16 divided by the
operand as i16.  CPU::exception only prints, so the zero check does not stop
execution and the i16 division itself panics on a zero divisor or on
-32768 / -1 (none); quotient low byte to AL, remainder low byte to AH. -/
def idiv8_exec (s : Machine) (srcVal : Nat) : Option Machine :=
  let dividend := toI16 s.ax
  let op1 := toI16 srcVal
  if op1 = 0 then none
  else if dividend = -32768 ∧ op1 = -1 then none
  else
    let quo := Int.tdiv dividend op1
    let rem := Int.tmod dividend op1
    some { s with ax := (Int.emod rem 256).toNat * 256 + (Int.emod quo 256).toNat }

/-- Op::Idiv16 executor arm (src/cpu/cpu.rs): DX:AX as i32 divided by the
operand as i16; a zero divisor panics (none); the quotient range check only
prints; truncated quotient to AX, remainder to DX. -/
def idiv16_exec (s : Machine) (srcVal : Nat) : Option Machine :=
  let dn := s.dx % 65536 * 65536 + s.ax % 65536
  let dividend : Int := if dn < 2147483648 then (dn : Int) else (dn : Int) - 4294967296
  let op1 := toI16 srcVal
  if op1 = 0 then none
  else
    let quo := Int.tdiv dividend op1
    let rem := Int.tmod dividend op1
    some { s with ax := (Int.emod quo 65536).toNat, dx := (Int.emod rem 65536).toNat }

/-- CPU::int dispatch (src/cpu/cpu.rs): vectors 3 and 0x20 set fatal_error,
vectors 0x10 0x16 0x1A 0x21 0x33 go to external handlers, every other
vector only logs.  No FLAGS CS IP push and no IVT read occurs. -/
def int_dispatch (handler : Nat → Machine → Machine) (v : Nat) (s : Machine) : Machine :=
  if v = 0x03 then { s with fatal_error := true }
  else if v = 0x10 ∨ v = 0x16 ∨ v = 0x1A ∨ v = 0x21 ∨ v = 0x33 then handler v s
  else if v = 0x20 then { s with fatal_error := true }
  else s

/-- Execution of an Op::Int instruction: CPU::execute advances IP past the
instruction and counts it, then the arm dispatches on the u8 vector. -/
def exec_int_instr (handler : Nat → Machine → Machine) (len v : Nat) (s : Machine) : Machine :=
  int_dispatch handler (v % 256)
    { s with ip := (s.ip + len) % 65536, instruction_count := s.instruction_count + 1 }

/-- Op::Movsb executor arm (src/cpu/cpu.rs): byte from DS:SI to ES:DI, SI
and DI stepped by ±1 per DF. -/
def movsb_exec (s : Machine) : Machine :=
  let b := mmu_read_u8 s.mem s.ds s.si
  let si' := if s.flags.direction = false then (s.si + 1) % 65536 else (s.si + 65535) % 65536
  let mem' := mmu_write_u8 s.mem s.es s.di b
  let di' := if s.flags.direction = false then (s.di + 1) % 65536 else (s.di + 65535) % 65536
  { s with si := si', di := di', mem := mem' }

/-- The RepeatMode::Rep tail of CPU::execute (src/cpu/cpu.rs): CX is
decremented (u16 wrap) after the body ran, and IP is moved back to the
start of the instruction when the decremented CX is nonzero. -/
def rep_tail (startIp : Nat) (s : Machine) : Machine :=
  let cxv := (s.cx + 65535) % 65536
  let s' := { s with cx := cxv }
  if cxv ≠ 0 then { s' with ip := startIp } else s'

/-- One CPU::execute call on REP MOVSB at startIp: IP advance, instruction
count, MOVSB body, REP tail. -/
def exec_rep_movsb_once (startIp len : Nat) (s : Machine) : Machine :=
  rep_tail startIp
    (movsb_exec { s with ip := (s.ip + len) % 65536, instruction_count := s.instruction_count + 1 })

/-- The execution loop re-runs the instruction for as long as the REP tail
moved IP back to it (fuel-indexed; fuel 65536 covers every CX value). -/
def run_rep_movsb : Nat → Nat → Nat → Machine → Machine
  | 0, _, _, s => s
  | fuel + 1, startIp, len, s =>
    let s' := exec_rep_movsb_once startIp len s
    if s'.ip = startIp then run_rep_movsb fuel startIp len s' else s'

/-- CPU::load_com (src/cpu/cpu.rs): DOSBox register conventions and image
placement at 0x085F:0x0100. -/
def load_com (s : Machine) (data : List Nat) : Machine :=
  { s with cs := 0x085F, ds := 0x085F, es := 0x085F, ss := 0x085F,
           sp := 0xFFFE, bp := 0x091C,
           cx := 0x00FF, dx := 0x085F, si := 0x0100, di := 0xFFFE,
           ip := 0x0100,
           mem := mmu_write_bytes s.mem 0x085F 0x0100 data }

/-- The SP value a RETN observes after its optional imm16 adjustment. -/
def retn_sp (imm : Option Nat) (s : Machine) : Nat :=
  match imm with
  | some i => (s.sp + i % 65536) % 65536
  | none => s.sp

/-- Op::Retn executor arm (src/cpu/cpu.rs): optional imm16 added to SP, then
fatal_error is set when SP is 0xFFFE, then IP is popped. -/
def retn_exec (imm : Option Nat) (s : Machine) : Machine :=
  let s1 :=
    match imm with
    | some i => { s with sp := (s.sp + i % 65536) % 65536 }
    | none => s
  let s2 := if s1.sp = 0xFFFE then { s1 with fatal_error := true } else s1
  let p := pop16 s2
  { p.2 with ip := p.1 }

/-- The ZF SF PF contract of spec section 4.2 for an 8-bit masked result r:
ZF iff r is zero, SF is the top bit of r, PF iff the low byte of r has an
even number of 1-bits. -/
def flags_spec_u8 (fl : Flags) (r : Nat) : Prop :=
  fl.zero = decide (r = 0) ∧ fl.sign = decide (128 ≤ r) ∧ fl.parity = decide (byteOnes r % 2 = 0)

/-- The ZF SF PF contract of spec section 4.2 for a 16-bit masked result. -/
def flags_spec_u16 (fl : Flags) (r : Nat) : Prop :=
  fl.zero = decide (r = 0) ∧ fl.sign = decide (32768 ≤ r) ∧ fl.parity = decide (byteOnes r % 2 = 0)

/-- All-zero flags word. -/
def flags0 : Flags :=
  { carry := false, parity := false, auxiliary_carry := false, zero := false,
    sign := false, trap := false, interrupt := false, direction := false,
    overflow := false }

/-- A base machine state with zeroed registers and memory. -/
def machine0 : Machine :=
  { ip := 0, ax := 0, cx := 0, dx := 0, bx := 0, sp := 0, bp := 0, si := 0, di := 0,
    es := 0, cs := 0, ss := 0, ds := 0, fs := 0, gs := 0,
    flags := flags0, mem := fun _ => 0, fatal_error := false, instruction_count := 0 }

/-- A handler that leaves the machine unchanged, for closing witness and
counterexample statements over the external interrupt surface. -/
def id_handler : Nat → Machine → Machine := fun _ s => s

/-- Machine with AX = 0x1234, the dividend state for the divide claims. -/
def c1_machine : Machine := { machine0 with ax := 0x1234 }

/-- Machine with AX = 0x0300, whose 8-bit quotient by 2 overflows AL. -/
def c1_machine_ov : Machine := { machine0 with ax := 0x0300 }

/-- Machine state before an INT instruction: SS:SP = 0x0900:0xFFFE,
CS:IP = 0x1000:0x0200, IF and TF set. -/
def c2_machine : Machine :=
  { machine0 with sp := 0xFFFE, ss := 0x0900, cs := 0x1000, ip := 0x0200,
                  flags := { flags0 with interrupt := true, trap := true } }

/-- Flags word with CF and OF both set, the prior state against which TEST
is exercised. -/
def flagsCO : Flags := { flags0 with carry := true, overflow := true }

/-- Machine with AX = 1, the state of the MUL counterexample. -/
def c4_machine : Machine := { machine0 with ax := 1 }

/-- Machine with SS:SP = 0x0900:0x0100 for the stack roundtrip witness. -/
def c8_machine : Machine := { machine0 with sp := 0x0100, ss := 0x0900 }

/-- Machine about to execute a one-byte REP MOVSB at IP = 0x0100 with
CX = 0. -/
def c3_machine : Machine := { machine0 with ip := 0x0100, cx := 0 }

/-- C1: the spec requires DIV and IDIV to raise the divide-by-zero
exception (vector 0) on a zero divisor or quotient overflow, without
crashing.  The code has no such path: Op::Div8 and Op::Div16 divide
unconditionally, so a zero divisor is a Rust division-by-zero panic
(modelled as none); Op::Idiv8 and Op::Idiv16 call CPU::exception, which only
prints, and then divide anyway, so they panic too; and an overflowing
quotient (0x1234 here 0x0300 / 2 = 0x0180 > 0xFF) is silently truncated
into AL (0x80) instead of raising the exception. -/
theorem claim_C1_div_zero_crashes :
    div8_exec c1_machine 0 = none ∧ div16_exec c1_machine 0 = none ∧
    idiv8_exec c1_machine 0 = none ∧ idiv16_exec c1_machine 0 = none ∧
    Option.map Machine.ax (div8_exec c1_machine_ov 2) = some 0x80 := by
  refine ⟨rfl, rfl, rfl, rfl, rfl⟩

/-- C2 counterexample: executing INT 0x42 from a state with IF = TF = true
leaves SP at 0xFFFE (nothing was pushed, where the claim requires three
pushes, SP = 0xFFF8) and leaves IF and TF set (the claim requires both
cleared); control never passes through the vector table. -/
theorem claim_C2_counterexample :
    (exec_int_instr id_handler 2 0x42 c2_machine).sp = 0xFFFE ∧
    (exec_int_instr id_handler 2 0x42 c2_machine).flags.interrupt = true ∧
    (exec_int_instr id_handler 2 0x42 c2_machine).flags.trap = true := by
  refine ⟨rfl, rfl, rfl⟩

/-- C2 amended: for every executed INT imm8 the executor itself never
pushes FLAGS CS IP, never clears IF or TF, and never reads the IVT.  All it
does beyond advancing IP and the instruction counter is: for vectors 0x03
and 0x20, set fatal_error; for vectors 0x10 0x16 0x1A 0x21 0x33, hand the
advanced state to the external host handler; for every other vector,
nothing at all. -/
theorem claim_C2_int_no_vectoring (handler : Nat → Machine → Machine) (len v : Nat)
    (s : Machine) :
    (v % 256 = 0x03 ∨ v % 256 = 0x20 →
      exec_int_instr handler len v s =
        { s with ip := (s.ip + len) % 65536,
                 instruction_count := s.instruction_count + 1,
                 fatal_error := true }) ∧
    (v % 256 = 0x10 ∨ v % 256 = 0x16 ∨ v % 256 = 0x1A ∨ v % 256 = 0x21 ∨ v % 256 = 0x33 →
      exec_int_instr handler len v s =
        handler (v % 256)
          { s with ip := (s.ip + len) % 65536,
                   instruction_count := s.instruction_count + 1 }) ∧
    (v % 256 ≠ 0x03 → v % 256 ≠ 0x10 → v % 256 ≠ 0x16 → v % 256 ≠ 0x1A →
      v % 256 ≠ 0x20 → v % 256 ≠ 0x21 → v % 256 ≠ 0x33 →
      exec_int_instr handler len v s =
        { s with ip := (s.ip + len) % 65536,
                 instruction_count := s.instruction_count + 1 }) := by
  refine ⟨?_, ?_, ?_⟩
  · intro h
    rcases h with h | h <;> simp [exec_int_instr, int_dispatch, h]
  · intro h
    rcases h with h | h | h | h | h <;> simp [exec_int_instr, int_dispatch, h]
  · intro h3 h10 h16 h1a h20 h21 h33
    simp [exec_int_instr, int_dispatch, h3, h10, h16, h1a, h20, h21, h33]

/-- C2 witness: the amended statement applied on the base machine at one
vector of each class: 0x20 (fatal), 0x21 (handler dispatch) and 0x42
(untouched). -/
theorem claim_C2_witness :
    exec_int_instr id_handler 2 0x20 machine0 =
      { machine0 with ip := (machine0.ip + 2) % 65536,
                      instruction_count := machine0.instruction_count + 1,
                      fatal_error := true } ∧
    exec_int_instr id_handler 2 0x21 machine0 =
      id_handler 0x21
        { machine0 with ip := (machine0.ip + 2) % 65536,
                        instruction_count := machine0.instruction_count + 1 } ∧
    exec_int_instr id_handler 2 0x42 machine0 =
      { machine0 with ip := (machine0.ip + 2) % 65536,
                      instruction_count := machine0.instruction_count + 1 } := by
  refine ⟨(claim_C2_int_no_vectoring id_handler 2 0x20 machine0).1 (by decide), ?_, ?_⟩
  · have h := (claim_C2_int_no_vectoring id_handler 2 0x21 machine0).2.1 (by decide)
    simpa using h
  · exact (claim_C2_int_no_vectoring id_handler 2 0x42 machine0).2.2 (by decide)
      (by decide) (by decide) (by decide) (by decide) (by decide) (by decide)

/-- C5: the spec states that NEG sets CF to (operand ≠ 0).  In the code the
carry update of Op::Neg8 and Op::Neg16 tests the local binding src, which is
the constant 0, so the carry flag comes out false for every operand value,
zero or not.  In particular at the failing input operand = 1 the code leaves
CF = false where the claim requires CF = true. -/
theorem claim_C5_neg_carry_always_false (f : Flags) (v : Nat) :
    (neg8_exec f v).2.carry = false ∧ (neg16_exec f v).2.carry = false := by
  constructor <;>
    simp [neg8_exec, neg16_exec, set_overflow_sub_u8, set_overflow_sub_u16,
      set_sign_u8, set_sign_u16, set_zero_u8, set_zero_u16, set_auxiliary, set_parity]

/-- C6 counterexample: executing Op::Test8 with both CF and OF previously
set leaves both flags set, refuting the claim that TEST clears CF and OF
regardless of their prior values. -/
theorem claim_C6_counterexample :
    ¬ ((test8_exec flagsCO 1 1).carry = false ∧ (test8_exec flagsCO 1 1).overflow = false) := by
  decide

/-- C6 amended: AND, OR and XOR (8- and 16-bit) clear both CF and OF, while
TEST (8- and 16-bit) leaves CF and OF unchanged, writing only SF ZF PF. -/
theorem claim_C6_logical_carry_overflow (f : Flags) (a b : Nat) :
    (and8_exec f a b).2.carry = false ∧ (and8_exec f a b).2.overflow = false ∧
    (and16_exec f a b).2.carry = false ∧ (and16_exec f a b).2.overflow = false ∧
    (or8_exec f a b).2.carry = false ∧ (or8_exec f a b).2.overflow = false ∧
    (or16_exec f a b).2.carry = false ∧ (or16_exec f a b).2.overflow = false ∧
    (xor8_exec f a b).2.carry = false ∧ (xor8_exec f a b).2.overflow = false ∧
    (xor16_exec f a b).2.carry = false ∧ (xor16_exec f a b).2.overflow = false ∧
    (test8_exec f a b).carry = f.carry ∧ (test8_exec f a b).overflow = f.overflow ∧
    (test16_exec f a b).carry = f.carry ∧ (test16_exec f a b).overflow = f.overflow := by
  refine ⟨?_, ?_, ?_, ?_, ?_, ?_, ?_, ?_, ?_, ?_, ?_, ?_, ?_, ?_, ?_, ?_⟩ <;>
    simp [and8_exec, and16_exec, or8_exec, or16_exec, xor8_exec, xor16_exec,
      test8_exec, test16_exec, set_sign_u8, set_sign_u16, set_zero_u8,
      set_zero_u16, set_parity]

/-- Introduction rule for the 8-bit ZF SF PF contract: it suffices that the
flags carry the canonical decide forms over a result congruent to the
claimed masked value. -/
theorem flags_spec_u8_intro {fl : Flags} {r : Nat} (res : Nat)
    (hz : fl.zero = decide (res % 256 = 0))
    (hs : fl.sign = decide (128 ≤ res % 256))
    (hp : fl.parity = decide (byteOnes res % 2 = 0))
    (h : res % 256 = r % 256) (hr : r < 256) :
    flags_spec_u8 fl r := by
  refine ⟨?_, ?_, ?_⟩
  · rw [hz, h, Nat.mod_eq_of_lt hr]
  · rw [hs, h, Nat.mod_eq_of_lt hr]
  · rw [hp]; unfold byteOnes; rw [h]

/-- Introduction rule for the 16-bit ZF SF PF contract. -/
theorem flags_spec_u16_intro {fl : Flags} {r : Nat} (res : Nat)
    (hz : fl.zero = decide (res % 65536 = 0))
    (hs : fl.sign = decide (32768 ≤ res % 65536))
    (hp : fl.parity = decide (byteOnes res % 2 = 0))
    (h : res % 65536 = r % 65536) (hr : r < 65536) :
    flags_spec_u16 fl r := by
  refine ⟨?_, ?_, ?_⟩
  · rw [hz, h, Nat.mod_eq_of_lt hr]
  · rw [hs, h, Nat.mod_eq_of_lt hr]
  · rw [hp]; unfold byteOnes
    have h8 : res % 256 = r % 256 := by omega
    rw [h8]

/-- ADD (8-bit) meets the ZF SF PF contract of spec section 4.2. -/
theorem add8_flags_spec (f : Flags) (a b : Nat) :
    flags_spec_u8 (add8_exec f a b).2 ((a % 256 + b % 256) % 256) := by
  apply flags_spec_u8_intro (a % 256 + b % 256)
  · simp [add8_exec, set_carry_u8, set_parity, set_auxiliary, set_zero_u8,
      set_sign_u8, set_overflow_add_u8]
  · simp [add8_exec, set_carry_u8, set_parity, set_auxiliary, set_zero_u8,
      set_sign_u8, set_overflow_add_u8]
  · simp [add8_exec, set_carry_u8, set_parity, set_auxiliary, set_zero_u8,
      set_sign_u8, set_overflow_add_u8]
  · omega
  · omega

/-- ADD (16-bit) meets the ZF SF PF contract. -/
theorem add16_flags_spec (f : Flags) (a b : Nat) :
    flags_spec_u16 (add16_exec f a b).2 ((a % 65536 + b % 65536) % 65536) := by
  apply flags_spec_u16_intro (a % 65536 + b % 65536)
  · simp [add16_exec, set_carry_u16, set_parity, set_auxiliary, set_zero_u16,
      set_sign_u16, set_overflow_add_u16]
  · simp [add16_exec, set_carry_u16, set_parity, set_auxiliary, set_zero_u16,
      set_sign_u16, set_overflow_add_u16]
  · simp [add16_exec, set_carry_u16, set_parity, set_auxiliary, set_zero_u16,
      set_sign_u16, set_overflow_add_u16]
  · omega
  · omega

/-- SUB (8-bit) meets the ZF SF PF contract. -/
theorem sub8_flags_spec (f : Flags) (a b : Nat) :
    flags_spec_u8 (sub8_exec f a b).2 ((b % 256 + 256 - a % 256) % 256) := by
  apply flags_spec_u8_intro (w64sub b a)
  · simp [sub8_exec, set_carry_u8, set_parity, set_auxiliary, set_zero_u8,
      set_sign_u8, set_overflow_sub_u8]
  · simp [sub8_exec, set_carry_u8, set_parity, set_auxiliary, set_zero_u8,
      set_sign_u8, set_overflow_sub_u8]
  · simp [sub8_exec, set_carry_u8, set_parity, set_auxiliary, set_zero_u8,
      set_sign_u8, set_overflow_sub_u8]
  · simp only [w64sub, pow64]; omega
  · omega

/-- SUB (16-bit) meets the ZF SF PF contract. -/
theorem sub16_flags_spec (f : Flags) (a b : Nat) :
    flags_spec_u16 (sub16_exec f a b).2 ((b % 65536 + 65536 - a % 65536) % 65536) := by
  apply flags_spec_u16_intro (w64sub b a)
  · simp [sub16_exec, set_carry_u16, set_parity, set_auxiliary, set_zero_u16,
      set_sign_u16, set_overflow_sub_u16]
  · simp [sub16_exec, set_carry_u16, set_parity, set_auxiliary, set_zero_u16,
      set_sign_u16, set_overflow_sub_u16]
  · simp [sub16_exec, set_carry_u16, set_parity, set_auxiliary, set_zero_u16,
      set_sign_u16, set_overflow_sub_u16]
  · simp only [w64sub, pow64]; omega
  · omega

/-- INC (8-bit) meets the ZF SF PF contract. -/
theorem inc8_flags_spec (f : Flags) (b : Nat) :
    flags_spec_u8 (inc8_exec f b).2 ((b % 256 + 1) % 256) := by
  apply flags_spec_u8_intro ((b + 1) % pow64)
  · simp [inc8_exec, set_parity, set_auxiliary, set_zero_u8, set_sign_u8,
      set_overflow_add_u8]
  · simp [inc8_exec, set_parity, set_auxiliary, set_zero_u8, set_sign_u8,
      set_overflow_add_u8]
  · simp [inc8_exec, set_parity, set_auxiliary, set_zero_u8, set_sign_u8,
      set_overflow_add_u8]
  · simp only [pow64]; omega
  · omega

/-- INC (16-bit) meets the ZF SF PF contract. -/
theorem inc16_flags_spec (f : Flags) (b : Nat) :
    flags_spec_u16 (inc16_exec f b).2 ((b % 65536 + 1) % 65536) := by
  apply flags_spec_u16_intro ((b + 1) % pow64)
  · simp [inc16_exec, set_parity, set_auxiliary, set_zero_u16, set_sign_u16,
      set_overflow_add_u16]
  · simp [inc16_exec, set_parity, set_auxiliary, set_zero_u16, set_sign_u16,
      set_overflow_add_u16]
  · simp [inc16_exec, set_parity, set_auxiliary, set_zero_u16, set_sign_u16,
      set_overflow_add_u16]
  · simp only [pow64]; omega
  · omega

/-- DEC (8-bit) meets the ZF SF PF contract. -/
theorem dec8_flags_spec (f : Flags) (b : Nat) :
    flags_spec_u8 (dec8_exec f b).2 ((b % 256 + 255) % 256) := by
  apply flags_spec_u8_intro (w64sub b 1)
  · simp [dec8_exec, set_parity, set_auxiliary, set_zero_u8, set_sign_u8,
      set_overflow_sub_u8]
  · simp [dec8_exec, set_parity, set_auxiliary, set_zero_u8, set_sign_u8,
      set_overflow_sub_u8]
  · simp [dec8_exec, set_parity, set_auxiliary, set_zero_u8, set_sign_u8,
      set_overflow_sub_u8]
  · simp only [w64sub, pow64]; omega
  · omega

/-- DEC (16-bit) meets the ZF SF PF contract. -/
theorem dec16_flags_spec (f : Flags) (b : Nat) :
    flags_spec_u16 (dec16_exec f b).2 ((b % 65536 + 65535) % 65536) := by
  apply flags_spec_u16_intro (w64sub b 1)
  · simp [dec16_exec, set_parity, set_auxiliary, set_zero_u16, set_sign_u16,
      set_overflow_sub_u16]
  · simp [dec16_exec, set_parity, set_auxiliary, set_zero_u16, set_sign_u16,
      set_overflow_sub_u16]
  · simp [dec16_exec, set_parity, set_auxiliary, set_zero_u16, set_sign_u16,
      set_overflow_sub_u16]
  · simp only [w64sub, pow64]; omega
  · omega

/-- NEG (8-bit) meets the ZF SF PF contract. -/
theorem neg8_flags_spec (f : Flags) (b : Nat) :
    flags_spec_u8 (neg8_exec f b).2 ((256 - b % 256) % 256) := by
  apply flags_spec_u8_intro (w64sub 0 b)
  · simp [neg8_exec, set_parity, set_auxiliary, set_zero_u8, set_sign_u8,
      set_overflow_sub_u8]
  · simp [neg8_exec, set_parity, set_auxiliary, set_zero_u8, set_sign_u8,
      set_overflow_sub_u8]
  · simp [neg8_exec, set_parity, set_auxiliary, set_zero_u8, set_sign_u8,
      set_overflow_sub_u8]
  · simp only [w64sub, pow64]; omega
  · omega

/-- NEG (16-bit) meets the ZF SF PF contract. -/
theorem neg16_flags_spec (f : Flags) (b : Nat) :
    flags_spec_u16 (neg16_exec f b).2 ((65536 - b % 65536) % 65536) := by
  apply flags_spec_u16_intro (w64sub 0 b)
  · simp [neg16_exec, set_parity, set_auxiliary, set_zero_u16, set_sign_u16,
      set_overflow_sub_u16]
  · simp [neg16_exec, set_parity, set_auxiliary, set_zero_u16, set_sign_u16,
      set_overflow_sub_u16]
  · simp [neg16_exec, set_parity, set_auxiliary, set_zero_u16, set_sign_u16,
      set_overflow_sub_u16]
  · simp only [w64sub, pow64]; omega
  · omega

/-- C4 counterexample: Op::Mul16 with AX = 1 and operand 1 produces the
masked result 1 (AX = 1, nonzero) yet assigns ZF = true, refuting the claim
that after every arithmetic instruction ZF holds iff the width-masked
result is zero. -/
theorem claim_C4_counterexample :
    (mul16_exec c4_machine 1).flags.zero = true ∧ (mul16_exec c4_machine 1).ax = 1 := by
  refine ⟨rfl, rfl⟩

/-- C4 amended: after ADD SUB INC DEC NEG (8- and 16-bit) the ZF SF PF
contract of the claim holds; MUL8 leaves every flag unchanged, and MUL16
leaves SF and PF unchanged while assigning ZF iff the low 32 bits of the
product are nonzero (the inverse of the claimed polarity). -/
theorem claim_C4_flags_after_arith (f : Flags) (a b : Nat) (s : Machine) (v : Nat) :
    flags_spec_u8 (add8_exec f a b).2 ((a % 256 + b % 256) % 256) ∧
    flags_spec_u16 (add16_exec f a b).2 ((a % 65536 + b % 65536) % 65536) ∧
    flags_spec_u8 (sub8_exec f a b).2 ((b % 256 + 256 - a % 256) % 256) ∧
    flags_spec_u16 (sub16_exec f a b).2 ((b % 65536 + 65536 - a % 65536) % 65536) ∧
    flags_spec_u8 (inc8_exec f b).2 ((b % 256 + 1) % 256) ∧
    flags_spec_u16 (inc16_exec f b).2 ((b % 65536 + 1) % 65536) ∧
    flags_spec_u8 (dec8_exec f b).2 ((b % 256 + 255) % 256) ∧
    flags_spec_u16 (dec16_exec f b).2 ((b % 65536 + 65535) % 65536) ∧
    flags_spec_u8 (neg8_exec f b).2 ((256 - b % 256) % 256) ∧
    flags_spec_u16 (neg16_exec f b).2 ((65536 - b % 65536) % 65536) ∧
    (mul8_exec s v).flags = s.flags ∧
    (mul16_exec s v).flags.zero = decide (v * s.ax % 4294967296 ≠ 0) ∧
    (mul16_exec s v).flags.sign = s.flags.sign ∧
    (mul16_exec s v).flags.parity = s.flags.parity := by
  refine ⟨add8_flags_spec f a b, add16_flags_spec f a b, sub8_flags_spec f a b,
    sub16_flags_spec f a b, inc8_flags_spec f b, inc16_flags_spec f b,
    dec8_flags_spec f b, dec16_flags_spec f b, neg8_flags_spec f b,
    neg16_flags_spec f b, ?_, ?_, ?_, ?_⟩
  · simp [mul8_exec]
  · simp only [mul16_exec]
    generalize v * s.ax = t
    rw [Bool.eq_iff_iff]
    simp only [Bool.or_eq_true, decide_eq_true_eq, pow64]
    omega
  · simp [mul16_exec]
  · simp [mul16_exec]

/-- C7: the spec states that MOVZX zero-extends its 8-bit source, so the
destination high byte is 0 for every source.  The Op::Movzx16 arm instead
adds 0xFF00 whenever bit 7 of the source is set (contradicting its own
zero-extend comment): at the failing input source = 0x80 the destination is
0xFF80, whose high byte is not 0. -/
theorem claim_C7_movzx_sign_extends :
    movzx16_exec 0x80 = 0xFF80 ∧ movzx16_exec 0x80 / 256 ≠ 0 := by
  decide

/-- Adjacent word-access addresses never collide: the translation of off
and of its 16-bit successor differ. -/
theorem s_translate_succ_ne (seg off : Nat) :
    s_translate seg off ≠ s_translate seg ((off + 1) % 65536) := by
  simp only [s_translate, pow20]
  omega

/-- Reading back a word just written at the same seg:off yields the word. -/
theorem mmu_read_write_u16 (m : Nat → Nat) (seg off v : Nat) (hv : v < 65536) :
    mmu_read_u16 (mmu_write_u16 m seg off v) seg off = v := by
  have hne := s_translate_succ_ne seg off
  simp only [mmu_read_u16, mmu_write_u16, mmu_read_u8, mmu_write_u8]
  rw [if_neg hne]
  simp only [if_true, eq_self_iff_true, ite_true]
  omega

/-- C8: PUSH x then POP with no intervening stack operation returns x and
restores SP, for every starting machine state with an in-range SP and every
16-bit x. -/
theorem claim_C8_push_pop (s : Machine) (x : Nat) (hx : x < 65536) (hsp : s.sp < 65536) :
    (pop16 (push16 s x)).1 = x ∧ (pop16 (push16 s x)).2.sp = s.sp := by
  constructor
  · simp only [pop16, push16]
    exact mmu_read_write_u16 _ _ _ _ hx
  · simp only [pop16, push16]
    omega

/-- C8 witness: pushing 0x1234 and popping it on a concrete machine. -/
theorem claim_C8_witness :
    (pop16 (push16 c8_machine 0x1234)).1 = 0x1234 ∧
    (pop16 (push16 c8_machine 0x1234)).2.sp = c8_machine.sp :=
  claim_C8_push_pop c8_machine 0x1234 (by decide) (by decide)

/-- C10: RETN (with or without the imm16 adjustment) sets fatal_error
exactly when the adjusted SP is 0xFFFE (keeping it set if already sticky),
and still pops the return IP from SS:(adjusted SP), leaving SP two higher. -/
theorem claim_C10_retn_fatal (imm : Option Nat) (s : Machine) :
    (retn_exec imm s).fatal_error = (s.fatal_error || decide (retn_sp imm s = 0xFFFE)) ∧
    (retn_exec imm s).ip = mmu_read_u16 s.mem s.ss (retn_sp imm s) ∧
    (retn_exec imm s).sp = (retn_sp imm s + 2) % 65536 := by
  cases imm with
  | none =>
    by_cases h : s.sp = 0xFFFE <;>
      simp [retn_exec, retn_sp, pop16, h]
  | some i =>
    by_cases h : (s.sp + i) % 65536 = 0xFFFE <;>
      simp [retn_exec, retn_sp, pop16, Nat.add_mod_mod, h]

/-- Distinct in-range offsets in the same segment translate to distinct
linear addresses. -/
theorem s_translate_ne (seg a b : Nat) (ha : a < 65536) (hb : b < 65536) (hne : a ≠ b) :
    s_translate seg a ≠ s_translate seg b := by
  simp only [s_translate, pow20]
  omega

/-- A block write leaves every address outside its write set unchanged. -/
theorem mmu_write_bytes_ne (data : List Nat) :
    ∀ (m : Nat → Nat) (seg off a : Nat),
      (∀ j, j < data.length → a ≠ s_translate seg (off + j)) →
      mmu_write_bytes m seg off data a = m a := by
  induction data with
  | nil => intro m seg off a _; rfl
  | cons b rest ih =>
    intro m seg off a h
    simp only [mmu_write_bytes]
    rw [ih (mmu_write_u8 m seg off b) seg (off + 1) a ?later]
    · simp only [mmu_write_u8]
      rw [if_neg ?head]
      case head =>
        have h0 := h 0 (by simp)
        simpa using h0
    case later =>
      intro j hj
      have := h (j + 1) (by simp; omega)
      rwa [show off + (j + 1) = off + 1 + j from by omega] at this

/-- Reading the i-th byte of a freshly written block (that stays inside the
64 KiB segment) returns that byte. -/
theorem mmu_write_bytes_get (data : List Nat) :
    ∀ (m : Nat → Nat) (seg off i : Nat) (h : i < data.length),
      off + data.length ≤ 65536 →
      mmu_read_u8 (mmu_write_bytes m seg off data) seg (off + i) = data.get ⟨i, h⟩ % 256 := by
  induction data with
  | nil => intro m seg off i h _; exact absurd h (by simp)
  | cons b rest ih =>
    intro m seg off i h hle
    cases i with
    | zero =>
      simp only [mmu_write_bytes, Nat.add_zero, List.get]
      unfold mmu_read_u8
      rw [mmu_write_bytes_ne rest (mmu_write_u8 m seg off b) seg (off + 1)
        (s_translate seg off) ?notin]
      · simp [mmu_write_u8]
      case notin =>
        intro j hj
        apply s_translate_ne seg off (off + 1 + j)
        · simp only [List.length_cons] at hle; omega
        · simp only [List.length_cons] at hle; omega
        · omega
    | succ k =>
      simp only [mmu_write_bytes, List.get]
      rw [show off + (k + 1) = off + 1 + k from by omega]
      exact ih (mmu_write_u8 m seg off b) seg (off + 1) k
        (by simpa using h) (by simp only [List.length_cons] at hle; omega)

/-- C9: after load_com, CS DS ES SS are 0x085F, SP = 0xFFFE, BP = 0x091C,
CX = 0x00FF, DX = 0x085F, SI = 0x0100, DI = 0xFFFE, IP = 0x0100, and the
image bytes sit at 0x085F:0x0100 onward. -/
theorem claim_C9_load_com (s : Machine) (data : List Nat) (i : Nat)
    (hi : i < data.length) (hlen : 0x0100 + data.length ≤ 65536) :
    (load_com s data).cs = 0x085F ∧ (load_com s data).ds = 0x085F ∧
    (load_com s data).es = 0x085F ∧ (load_com s data).ss = 0x085F ∧
    (load_com s data).sp = 0xFFFE ∧ (load_com s data).bp = 0x091C ∧
    (load_com s data).cx = 0x00FF ∧ (load_com s data).dx = 0x085F ∧
    (load_com s data).si = 0x0100 ∧ (load_com s data).di = 0xFFFE ∧
    (load_com s data).ip = 0x0100 ∧
    mmu_read_u8 (load_com s data).mem 0x085F (0x0100 + i) = data.get ⟨i, hi⟩ % 256 := by
  refine ⟨rfl, rfl, rfl, rfl, rfl, rfl, rfl, rfl, rfl, rfl, rfl, ?_⟩
  simp only [load_com]
  exact mmu_write_bytes_get data s.mem 0x085F 0x0100 i hi hlen

/-- C9 witness: loading the two-byte image [0xAA, 0xBB] into the base
machine and reading back the second byte. -/
theorem claim_C9_witness :
    (load_com machine0 [0xAA, 0xBB]).cs = 0x085F ∧
    (load_com machine0 [0xAA, 0xBB]).sp = 0xFFFE ∧
    (load_com machine0 [0xAA, 0xBB]).cx = 0x00FF ∧
    (load_com machine0 [0xAA, 0xBB]).ip = 0x0100 ∧
    mmu_read_u8 (load_com machine0 [0xAA, 0xBB]).mem 0x085F (0x0100 + 1) = 0xBB := by
  have h := claim_C9_load_com machine0 [0xAA, 0xBB] 1 (by decide) (by decide)
  exact ⟨h.1, h.2.2.2.2.1, h.2.2.2.2.2.2.1, h.2.2.2.2.2.2.2.2.2.2.1,
    h.2.2.2.2.2.2.2.2.2.2.2⟩

/-- The instruction counter advances by one per REP MOVSB body execution. -/
theorem exec_once_ic (startIp len : Nat) (s : Machine) :
    (exec_rep_movsb_once startIp len s).instruction_count = s.instruction_count + 1 := by
  unfold exec_rep_movsb_once rep_tail movsb_exec
  dsimp only
  split <;> rfl

/-- One REP MOVSB execution decrements CX with 16-bit wraparound. -/
theorem exec_once_cx (startIp len : Nat) (s : Machine) :
    (exec_rep_movsb_once startIp len s).cx = (s.cx + 65535) % 65536 := by
  unfold exec_rep_movsb_once rep_tail movsb_exec
  dsimp only
  split <;> rfl

/-- One REP MOVSB execution moves IP back to the instruction start exactly
when the decremented CX is nonzero. -/
theorem exec_once_ip (startIp len : Nat) (s : Machine) :
    (exec_rep_movsb_once startIp len s).ip =
      if (s.cx + 65535) % 65536 ≠ 0 then startIp else (s.ip + len) % 65536 := by
  unfold exec_rep_movsb_once rep_tail movsb_exec
  dsimp only
  split <;> split <;> rfl

/-- Unfolding equation of the REP execution loop. -/
theorem run_rep_movsb_succ (f startIp len : Nat) (s : Machine) :
    run_rep_movsb (f + 1) startIp len s =
      if (exec_rep_movsb_once startIp len s).ip = startIp
      then run_rep_movsb f startIp len (exec_rep_movsb_once startIp len s)
      else exec_rep_movsb_once startIp len s := rfl

/-- With CX = c in 1..65536 the REP loop executes the body exactly c times
before IP leaves the instruction. -/
theorem run_rep_movsb_count :
    ∀ (fuel : Nat) (s : Machine) (c startIp len : Nat),
      s.cx = c → 1 ≤ c → c ≤ fuel → c ≤ 65536 → s.ip = startIp →
      (startIp + len) % 65536 ≠ startIp →
      (run_rep_movsb fuel startIp len s).instruction_count = s.instruction_count + c := by
  intro fuel
  induction fuel with
  | zero => intro s c startIp len _ h1 hf _ _ _; omega
  | succ f ih =>
    intro s c startIp len hcx h1 hf h65 hip hlen
    rw [run_rep_movsb_succ]
    have hic := exec_once_ic startIp len s
    have hcx' := exec_once_cx startIp len s
    have hipeq := exec_once_ip startIp len s
    rw [hcx] at hcx' hipeq
    by_cases hc1 : c = 1
    · subst hc1
      have hz : (1 + 65535) % 65536 = 0 := by norm_num
      have hip' : (exec_rep_movsb_once startIp len s).ip = (s.ip + len) % 65536 := by
        rw [hipeq, hz]; simp
      rw [if_neg (by rw [hip', hip]; exact hlen), hic]
    · have hcx'' : (exec_rep_movsb_once startIp len s).cx = c - 1 := by
        rw [hcx']; omega
      have hipS : (exec_rep_movsb_once startIp len s).ip = startIp := by
        rw [hipeq, if_pos (by omega)]
      rw [if_pos hipS]
      rw [ih (exec_rep_movsb_once startIp len s) (c - 1) startIp len hcx''
        (by omega) (by omega) (by omega) hipS hlen, hic]
      omega

/-- C3: the claim requires a REP-prefixed string instruction to run its body
exactly the initial CX times, including zero times for CX = 0.  The REP tail
decrements CX only after the body already ran, so with CX = 0 the body runs
once, CX wraps to 0xFFFF, and the loop continues for 65536 body executions
in total (instruction_count 65536, not 0), diverging from the claim at the
failing input CX = 0. -/
theorem claim_C3_rep_cx_zero :
    (run_rep_movsb 65536 0x0100 1 c3_machine).instruction_count = 65536 ∧
    c3_machine.cx = 0 ∧ c3_machine.instruction_count = 0 := by
  refine ⟨?_, rfl, rfl⟩
  rw [run_rep_movsb_succ]
  have hic := exec_once_ic 0x0100 1 c3_machine
  have hcx := exec_once_cx 0x0100 1 c3_machine
  have hipeq := exec_once_ip 0x0100 1 c3_machine
  have hcx0 : c3_machine.cx = 0 := rfl
  rw [hcx0] at hcx hipeq
  norm_num at hcx hipeq
  rw [if_pos hipeq]
  rw [run_rep_movsb_count 65535 (exec_rep_movsb_once 0x0100 1 c3_machine) 65535
    0x0100 1 hcx (by omega) (by omega) (by omega) hipeq (by decide), hic]
  rfl

end RsX86Emu
